import Mathlib

/-
  Shallow embedding of `src/metrics.py` (github-metrics): a linear pipeline
  fetch → filter → join → aggregate → format → write.

  Modelling conventions:
  * A Python `datetime` parsed from an ISO-8601 string is modelled as a
    `Timestamp`: the wall-clock reading in seconds (`secs`) together with an
    optional UTC offset in seconds (`offset`).  `offset = none` models a naive
    datetime; the code normalises naive datetimes with
    `dt.replace(tzinfo=timezone.utc)`, which keeps the wall-clock reading and
    assigns offset 0, so the UTC instant of a timestamp is
    `secs - offset.getD 0`.  Comparisons of aware datetimes in Python compare
    UTC instants.
  * Python floats are modelled as `ℚ` (the arithmetic the code performs is
    exact division / multiplication on values derived from integers).
  * A JSON object fetched over HTTP is modelled as the parsed record; a
    transport / HTTP-status failure is an `Except.error`.
  * `requests` pagination is modelled by the list of responses the server
    would give for pages 1, 2, 3, …; each successful response carries the
    page's data and whether the response declares a `next` link.
-/

namespace GithubMetrics

/-- A parsed ISO-8601 timestamp: wall-clock seconds plus optional UTC offset
(seconds). `offset = none` is a naive datetime. -/
structure Timestamp where
  secs : Int
  offset : Option Int
deriving DecidableEq, Repr

/-- The UTC instant of a timestamp; a naive timestamp is interpreted as UTC
(mirrors `dt.replace(tzinfo=timezone.utc)` / aware-datetime comparison). -/
def Timestamp.toUtc (t : Timestamp) : Int :=
  t.secs - t.offset.getD 0

/-- One element of the paginated pull-request listing
(`pr` dict in `fetch_and_calculate_metrics`): `pr['number']`,
`pr['user']['login']`, `pr['state']`, `pr['created_at']`, `pr['merged_at']`.
A missing / null timestamp field is `none`. -/
structure PullRequestSummary where
  number : Int
  author : String
  state : String
  created_at : Option Timestamp
  merged_at : Option Timestamp
deriving DecidableEq, Repr

/-- The per-item detail object; `additions` / `deletions` may be absent
(`pr_details.get('additions', 0)` then defaults to 0). -/
structure PullRequestDetail where
  additions : Option Int
  deletions : Option Int
deriving DecidableEq, Repr

/-- One record of the side file `teams.json`: `{github_user, team}`. -/
structure TeamEntry where
  github_user : String
  team : String
deriving DecidableEq, Repr

/-- The dict comprehension `{user['github_user']: user['team'] for user in mapping}`:
entries are inserted left to right, a later entry with the same key overwrites
the earlier one. -/
def buildTeamDict (entries : List TeamEntry) : String → Option String :=
  entries.foldl (fun m e => fun k => if k = e.github_user then some e.team else m k)
    (fun _ => none)

/-- `load_team_mapping` (src/metrics.py lines 35-45): the file's parsed
contents, or `none` when the file cannot be found (`FileNotFoundError`), in
which case the function prints a diagnostic and returns the empty mapping. -/
def load_team_mapping (file : Option (List TeamEntry)) : String → Option String :=
  match file with
  | some entries => buildTeamDict entries
  | none => fun _ => none

/-- `team_map.get(author, 'Unassigned')` (line 113). -/
def resolveTeam (team_map : String → Option String) (author : String) : String :=
  (team_map author).getD "Unassigned"

/-- `github_api_request(url)` with `single_object=False`
(src/metrics.py lines 56-74): starting at page 1, request the current page;
on a `RequestException` print the page number and break, returning what was
accumulated; on an empty page break; otherwise accumulate the page's items
and continue only when the response's links declare a `next` page.
`resps` is the server's response for page 1 at the head, then page 2, … ;
an exhausted response list models no further response. -/
def githubApiRequestList {α : Type} : List (Except String (List α × Bool)) → List α
  | [] => []
  | resp :: rest =>
    match resp with
    | Except.error _ => []
    | Except.ok (data, hasNext) =>
      if data.isEmpty then []
      else if hasNext then data ++ githubApiRequestList rest
      else data

/-- `github_api_request(url, single_object=True)` (lines 48-55): the parsed
response, or `{}` (every field absent) after printing the error on a
`RequestException`. -/
def githubApiRequestSingle (resp : Except String PullRequestDetail) : PullRequestDetail :=
  match resp with
  | Except.ok d => d
  | Except.error _ => { additions := none, deletions := none }

/-- `calculate_time_difference(start_str, end_str)` (lines 76-81): 0 when
either string is missing/empty, otherwise
`(end - start).total_seconds() / 3600.0` on the two parsed UTC instants. -/
def calculate_time_difference (s e : Option Timestamp) : ℚ :=
  match s, e with
  | some st, some en => ((en.toUtc - st.toUtc : Int) : ℚ) / 3600
  | _, _ => 0

/-- The filter predicate of lines 99-106: a pull request is kept when it has a
`created_at` and `start_dt <= created_dt <= end_dt` (instants compared after
naive values are normalised to UTC). -/
def inWindow (start_dt end_dt : Timestamp) (pr : PullRequestSummary) : Bool :=
  match pr.created_at with
  | none => false
  | some c => decide (start_dt.toUtc ≤ c.toUtc) && decide (c.toUtc ≤ end_dt.toUtc)

/-- The time-window filter (lines 98-107): `filtered_prs` built by appending,
in order, each `pr` whose `created_at` lies in the inclusive window. -/
def filterByWindow (start_dt end_dt : Timestamp) (prs : List PullRequestSummary) :
    List PullRequestSummary :=
  prs.filter (inWindow start_dt end_dt)

/-- One row of `metrics_data` (lines 111-131). -/
structure PullRequestMetricRecord where
  team : String
  pr_id : Int
  author : String
  state : String
  merged : Bool
  time_to_merge_hours : ℚ
  lines_added : Int
  lines_deleted : Int
deriving DecidableEq, Repr

/-- The body of the metrics loop (lines 111-131) for one filtered pull
request: resolve the team, fetch the detail object (empty on failure),
set `merged := merged_at is not None`, default `time_to_merge_hours` to 0 and
overwrite it with `calculate_time_difference(created_at, merged_at)` when
merged, and default absent `additions`/`deletions` to 0. -/
def makeMetricRecord (team_map : String → Option String)
    (details : Int → Except String PullRequestDetail)
    (pr : PullRequestSummary) : PullRequestMetricRecord :=
  let d := githubApiRequestSingle (details pr.number)
  { team := resolveTeam team_map pr.author
    pr_id := pr.number
    author := pr.author
    state := pr.state
    merged := pr.merged_at.isSome
    time_to_merge_hours :=
      if pr.merged_at.isSome then calculate_time_difference pr.created_at pr.merged_at
      else 0
    lines_added := d.additions.getD 0
    lines_deleted := d.deletions.getD 0 }

/-- `metrics_data` (lines 98-131): one record per pull request of the
filtered list, in order. -/
def metricsData (team_map : String → Option String)
    (details : Int → Except String PullRequestDetail)
    (start_dt end_dt : Timestamp) (prs : List PullRequestSummary) :
    List PullRequestMetricRecord :=
  (filterByWindow start_dt end_dt prs).map (makeMetricRecord team_map details)

/-- Round a rational to the nearest integer, ties to the even neighbour
(the rounding numpy/pandas `.round` performs). -/
def roundHalfEven (q : ℚ) : Int :=
  if q - ⌊q⌋ < 1/2 then ⌊q⌋
  else if 1/2 < q - ⌊q⌋ then ⌊q⌋ + 1
  else if Even ⌊q⌋ then ⌊q⌋ else ⌊q⌋ + 1

/-- `.round(2)`: round to 2 decimal places, ties to even. -/
def round2 (q : ℚ) : ℚ :=
  (roundHalfEven (q * 100) : ℚ) / 100

/-- One row of `team_stats` after lines 142-151. -/
structure TeamAggregate where
  team : String
  total_prs : Nat
  merged_prs : Nat
  total_additions : Int
  total_deletions : Int
  merge_rate_percent : ℚ
  avg_cycle_time_days : ℚ
deriving DecidableEq, Repr

/-- The rows of `df` whose `team` column equals `t` (the group produced by
`df.groupby('team')` for key `t`, rows in original order). -/
def teamGroup (records : List PullRequestMetricRecord) (t : String) :
    List PullRequestMetricRecord :=
  records.filter (fun r => r.team = t)

/-- The group keys of `df.groupby('team')`: the distinct team values, sorted
ascending (pandas `groupby` default `sort=True`). -/
def teamKeys (records : List PullRequestMetricRecord) : List String :=
  ((records.map (fun r => r.team)).dedup).insertionSort (· ≤ ·)

/-- The aggregation of lines 142-151 for one group: `total_prs` counts
`pr_id`, `merged_prs` sums the boolean `merged` column, `total_additions` /
`total_deletions` sum the line counts, `avg_cycle_time_hours` is the mean of
`time_to_merge_hours`; then the derived columns of lines 149-151:
`merge_rate` is `(merged_prs / total_prs) * 100` and `avg_cycle_time_days`
is `(avg_cycle_time_hours / 24).round(2)`, after which the intermediate
hours column is dropped. -/
def aggregateGroup (t : String) (g : List PullRequestMetricRecord) : TeamAggregate :=
  { team := t
    total_prs := g.length
    merged_prs := (g.filter (fun r => r.merged)).length
    total_additions := (g.map (fun r => r.lines_added)).sum
    total_deletions := (g.map (fun r => r.lines_deleted)).sum
    merge_rate_percent :=
      (((g.filter (fun r => r.merged)).length : ℚ) / (g.length : ℚ)) * 100
    avg_cycle_time_days :=
      round2 ((((g.map (fun r => r.time_to_merge_hours)).sum / (g.length : ℚ))) / 24) }

/-- `team_stats` before the final sort (lines 142-151): one aggregate row per
group key, in the groupby key order. -/
def teamStats (records : List PullRequestMetricRecord) : List TeamAggregate :=
  (teamKeys records).map (fun t => aggregateGroup t (teamGroup records t))

/-- `team_stats.sort_values(by='merge_rate_%', ascending=False)` (line 152):
rows reordered so `merge_rate_percent` is descending.  The code's default
`kind='quicksort'` leaves the relative order of tied rows unspecified; this
model uses a stable sort, and no theorem below depends on tie order. -/
def sortByRateDesc (rows : List TeamAggregate) : List TeamAggregate :=
  rows.insertionSort (fun a b => b.merge_rate_percent ≤ a.merge_rate_percent)

/-- `fetch_and_calculate_metrics(start_date, end_date)` (lines 84-170) as a
function of its environment: the team file's contents (`none` = file not
found), the server's paginated list responses, the per-number detail
responses, and the parsed window endpoints.  Returns `none` when the function
returns early at line 140 (`if not metrics_data`) before creating the output
directory or writing the report, and otherwise the final sorted table that is
written to CSV. -/
def fetch_and_calculate_metrics (teamFile : Option (List TeamEntry))
    (pages : List (Except String (List PullRequestSummary × Bool)))
    (details : Int → Except String PullRequestDetail)
    (start_dt end_dt : Timestamp) : Option (List TeamAggregate) :=
  let team_map := load_team_mapping teamFile
  let prs := githubApiRequestList pages
  let md := metricsData team_map details start_dt end_dt prs
  if md.isEmpty then none
  else some (sortByRateDesc (teamStats md))

/-- Concrete pipeline input used to instantiate the aggregate theorems: a
merged pull request by an unmapped author, created and merged inside the
window. -/
def samplePr : PullRequestSummary :=
  { number := 3, author := "carol", state := "closed",
    created_at := some ⟨5, some 0⟩, merged_at := some ⟨5, some 0⟩ }

/-- The metric records the pipeline derives from `samplePr` with no team file
and failing detail fetches. -/
def sampleMetrics : List PullRequestMetricRecord :=
  metricsData (fun _ => none) (fun _ => Except.error "x") ⟨0, some 0⟩ ⟨10, some 0⟩ [samplePr]

/-- The `"Unassigned"` group of `sampleMetrics`. -/
def sampleGroup : List PullRequestMetricRecord :=
  teamGroup sampleMetrics "Unassigned"

/-- A standalone metric record for instantiating per-group theorems. -/
def sampleRecord : PullRequestMetricRecord :=
  { team := "core", pr_id := 1, author := "alice", state := "closed",
    merged := true, time_to_merge_hours := 48, lines_added := 10, lines_deleted := 2 }

theorem count_filter_eq_ite {α : Type} [DecidableEq α] (a : α) (p : α → Bool) (l : List α) :
    (l.filter p).count a = if p a then l.count a else 0 := by
  by_cases h : p a
  · simp [List.count_filter h, h]
  · simp only [h, if_false]
    exact List.count_eq_zero.mpr (fun hmem => h (List.of_mem_filter hmem))

/-- C1: the time-window filter returns exactly the subsequence of summaries
whose `created_at` satisfies `start ≤ created_at ≤ end` (instants compared
after naive timestamps are interpreted as UTC), preserving the original
relative order, and excludes every summary whose `created_at` is absent. -/
theorem filterByWindow_exact (s e : Timestamp) (prs : List PullRequestSummary) :
    List.Sublist (filterByWindow s e prs) prs
    ∧ (∀ pr : PullRequestSummary,
        (filterByWindow s e prs).count pr = if inWindow s e pr then prs.count pr else 0)
    ∧ (∀ pr : PullRequestSummary,
        inWindow s e pr = true
          ↔ ∃ c, pr.created_at = some c ∧ s.toUtc ≤ c.toUtc ∧ c.toUtc ≤ e.toUtc) := by
  refine ⟨List.filter_sublist prs, fun pr => count_filter_eq_ite pr _ prs, fun pr => ?_⟩
  cases h : pr.created_at with
  | none => simp [inWindow, h]
  | some c => simp [inWindow, h]

/-- C5 (counterexample): a merged pull request whose recorded merge instant
precedes its creation instant yields a negative `time_to_merge_hours`; the
code never clamps, so the field is not always `≥ 0`. -/
theorem timeToMerge_negative_cex :
    (makeMetricRecord (fun _ => none) (fun _ => Except.error "boom")
      { number := 1, author := "alice", state := "closed",
        created_at := some ⟨3600, some 0⟩,
        merged_at := some ⟨0, some 0⟩ }).time_to_merge_hours < 0 := by
  simp [makeMetricRecord, calculate_time_difference, Timestamp.toUtc]

/-- C5 (amended): `time_to_merge_hours` is 0 when the pull request is not
merged or when either timestamp is missing; when merged with both timestamps
present it equals the exact fractional elapsed hours
`(merged_at - created_at).total_seconds() / 3600.0` between the two UTC
instants, which is nonnegative whenever the merge instant is not earlier than
the creation instant (the code does not clamp, so out-of-order timestamps
produce a negative value). -/
theorem timeToMerge_formula (tm : String → Option String)
    (d : Int → Except String PullRequestDetail) (pr : PullRequestSummary) :
    ((makeMetricRecord tm d pr).merged = pr.merged_at.isSome)
    ∧ (pr.merged_at = none → (makeMetricRecord tm d pr).time_to_merge_hours = 0)
    ∧ (pr.created_at = none → (makeMetricRecord tm d pr).time_to_merge_hours = 0)
    ∧ ∀ c m, pr.created_at = some c → pr.merged_at = some m →
        (makeMetricRecord tm d pr).time_to_merge_hours
            = ((m.toUtc - c.toUtc : Int) : ℚ) / 3600
          ∧ (c.toUtc ≤ m.toUtc → 0 ≤ (makeMetricRecord tm d pr).time_to_merge_hours) := by
  refine ⟨rfl, fun h => ?_, fun h => ?_, fun c m hc hm => ?_⟩
  · simp [makeMetricRecord, h]
  · cases hm : pr.merged_at with
    | none => simp [makeMetricRecord, hm]
    | some m => simp [makeMetricRecord, calculate_time_difference, h, hm]
  · have hval : (makeMetricRecord tm d pr).time_to_merge_hours
        = ((m.toUtc - c.toUtc : Int) : ℚ) / 3600 := by
      simp [makeMetricRecord, calculate_time_difference, hc, hm]
    refine ⟨hval, fun hle => ?_⟩
    rw [hval]
    have hnum : (0 : ℚ) ≤ ((m.toUtc - c.toUtc : Int) : ℚ) := by
      exact_mod_cast sub_nonneg.mpr hle
    positivity

theorem buildTeamDict_no_key (u : String) (es : List TeamEntry)
    (hnone : ∀ e ∈ es, e.github_user ≠ u) (m : String → Option String) :
    es.foldl (fun m e => fun k => if k = e.github_user then some e.team else m k) m u
      = m u := by
  induction es generalizing m with
  | nil => rfl
  | cons e0 es ih =>
    rw [List.foldl_cons, ih (fun e he => hnone e (List.mem_cons_of_mem _ he))]
    have hne : u ≠ e0.github_user := fun hh => hnone e0 (List.mem_cons_self ..) hh.symm
    simp [hne]

/-- C10: when the team file has several records with the same `github_user`,
the dict comprehension keeps the team of the last such record (later entries
override earlier ones). -/
theorem teamMapping_lastWins (es₁ es₂ : List TeamEntry) (u t : String)
    (h : ∀ e ∈ es₂, e.github_user ≠ u) :
    buildTeamDict (es₁ ++ { github_user := u, team := t } :: es₂) u = some t := by
  unfold buildTeamDict
  rw [List.foldl_append, List.foldl_cons, buildTeamDict_no_key u es₂ h]
  simp

/-- C10 (witness): two records for `alice`; the mapping returns the later one. -/
theorem teamMapping_lastWins_witness :
    buildTeamDict ([{ github_user := "alice", team := "platform" }] ++
      { github_user := "alice", team := "core" } :: []) "alice" = some "core" :=
  teamMapping_lastWins [{ github_user := "alice", team := "platform" }] []
    "alice" "core" (by simp)

/-- C3: every team row of the aggregate has `total_prs > 0` (groups are built
only from non-empty record sets), and `merge_rate_percent` equals
`100 * merged_prs / total_prs` and lies in `[0, 100]`. -/
theorem mergeRate_formula (records : List PullRequestMetricRecord) (a : TeamAggregate)
    (ha : a ∈ teamStats records) :
    0 < a.total_prs
    ∧ a.merge_rate_percent = 100 * (a.merged_prs : ℚ) / (a.total_prs : ℚ)
    ∧ 0 ≤ a.merge_rate_percent ∧ a.merge_rate_percent ≤ 100 := by
  obtain ⟨t, ht, rfl⟩ := List.mem_map.mp ha
  have hex : ∃ r ∈ records, r.team = t := by
    simpa [teamKeys, List.mem_insertionSort, List.mem_dedup] using ht
  obtain ⟨r, hr, hrt⟩ := hex
  have hmem : r ∈ teamGroup records t := by
    simp [teamGroup, List.mem_filter, hr, hrt]
  have hlen : 0 < (teamGroup records t).length :=
    List.length_pos.mpr (List.ne_nil_of_mem hmem)
  have hle : ((teamGroup records t).filter (fun r => r.merged)).length
      ≤ (teamGroup records t).length := List.length_filter_le _ _
  have hnq : (0 : ℚ) < ((teamGroup records t).length : ℚ) := by exact_mod_cast hlen
  have hleq : (((teamGroup records t).filter (fun r => r.merged)).length : ℚ)
      ≤ ((teamGroup records t).length : ℚ) := by exact_mod_cast hle
  refine ⟨hlen, ?_, ?_, ?_⟩
  · show (((teamGroup records t).filter (fun r => r.merged)).length : ℚ)
        / ((teamGroup records t).length : ℚ) * 100
      = 100 * (((teamGroup records t).filter (fun r => r.merged)).length : ℚ)
        / ((teamGroup records t).length : ℚ)
    ring
  · show 0 ≤ (((teamGroup records t).filter (fun r => r.merged)).length : ℚ)
        / ((teamGroup records t).length : ℚ) * 100
    positivity
  · show (((teamGroup records t).filter (fun r => r.merged)).length : ℚ)
        / ((teamGroup records t).length : ℚ) * 100 ≤ 100
    have hdiv : (((teamGroup records t).filter (fun r => r.merged)).length : ℚ)
        / ((teamGroup records t).length : ℚ) ≤ 1 := (div_le_one hnq).mpr hleq
    nlinarith

/-- C3 (witness): a one-record run has a group with `total_prs = 1 > 0`. -/
theorem mergeRate_formula_witness :
    0 < (aggregateGroup "core" (teamGroup [sampleRecord] "core")).total_prs :=
  (mergeRate_formula [sampleRecord]
    (aggregateGroup "core" (teamGroup [sampleRecord] "core"))
    (List.mem_singleton_self _)).1

/-- C4: every team row's `avg_cycle_time_days` equals
`round(mean(time_to_merge_hours)/24, 2)` over the team's records, where every
unmerged record contributes exactly 0 to the mean rather than being excluded
or treated as null. -/
theorem avgCycleTime_formula (tm : String → Option String)
    (d : Int → Except String PullRequestDetail) (s e : Timestamp)
    (prs : List PullRequestSummary) (a : TeamAggregate)
    (ha : a ∈ teamStats (metricsData tm d s e prs)) :
    a.avg_cycle_time_days
      = round2 ((((teamGroup (metricsData tm d s e prs) a.team).map
            (fun r => if r.merged then r.time_to_merge_hours else 0)).sum
          / ((teamGroup (metricsData tm d s e prs) a.team).length : ℚ)) / 24) := by
  obtain ⟨t, ht, rfl⟩ := List.mem_map.mp ha
  have hteam : (aggregateGroup t (teamGroup (metricsData tm d s e prs) t)).team = t := rfl
  rw [hteam]
  have hmap : (teamGroup (metricsData tm d s e prs) t).map
        (fun r => if r.merged then r.time_to_merge_hours else 0)
      = (teamGroup (metricsData tm d s e prs) t).map
        (fun r => r.time_to_merge_hours) := by
    apply List.map_congr_left
    intro r hrg
    have hr : r ∈ metricsData tm d s e prs := List.mem_of_mem_filter hrg
    obtain ⟨pr, hpr, rfl⟩ := List.mem_map.mp hr
    cases hm : pr.merged_at with
    | none => simp [makeMetricRecord, hm]
    | some m => simp [makeMetricRecord, hm]
  rw [hmap]
  rfl

/-- C4 (witness): the sample run's `"Unassigned"` row satisfies the formula. -/
theorem avgCycleTime_formula_witness :
    (aggregateGroup "Unassigned" sampleGroup).avg_cycle_time_days
      = round2 (((sampleGroup.map (fun r => if r.merged then r.time_to_merge_hours else 0)).sum
          / (sampleGroup.length : ℚ)) / 24) :=
  avgCycleTime_formula (fun _ => none) (fun _ => Except.error "x") ⟨0, some 0⟩ ⟨10, some 0⟩
    [samplePr] (aggregateGroup "Unassigned" sampleGroup) (List.mem_singleton_self _)

/-- C6: when the team file is missing the loader yields the empty mapping,
every author then resolves to `"Unassigned"` (so every derived record carries
that team), and a run with at least one pull request in the window still
completes and produces a report. -/
theorem missingTeamFile_recovers
    (pages : List (Except String (List PullRequestSummary × Bool)))
    (d : Int → Except String PullRequestDetail) (s e : Timestamp)
    (h : filterByWindow s e (githubApiRequestList pages) ≠ []) :
    (∀ u, load_team_mapping none u = none)
    ∧ (∀ u, resolveTeam (load_team_mapping none) u = "Unassigned")
    ∧ (∀ r ∈ metricsData (load_team_mapping none) d s e (githubApiRequestList pages),
        r.team = "Unassigned")
    ∧ (fetch_and_calculate_metrics none pages d s e).isSome = true := by
  refine ⟨fun u => rfl, fun u => rfl, fun r hr => ?_, ?_⟩
  · obtain ⟨pr, hpr, rfl⟩ := List.mem_map.mp hr
    rfl
  · have hmd : metricsData (load_team_mapping none) d s e (githubApiRequestList pages) ≠ [] := by
      simp only [metricsData]
      intro hcon
      exact h (List.map_eq_nil_iff.mp hcon)
    simp [fetch_and_calculate_metrics, List.isEmpty_eq_false, hmd]

/-- C6 (witness): one in-window pull request, no team file: the run returns a
report. -/
theorem missingTeamFile_recovers_witness :
    (fetch_and_calculate_metrics none [Except.ok ([samplePr], false)]
      (fun _ => Except.error "x") ⟨0, some 0⟩ ⟨10, some 0⟩).isSome = true :=
  (missingTeamFile_recovers [Except.ok ([samplePr], false)]
    (fun _ => Except.error "x") ⟨0, some 0⟩ ⟨10, some 0⟩ (by decide)).2.2.2

/-- C7: when zero pull requests fall in the window, zero metric records are
produced and the pipeline returns early with no report value (the output
directory and file are only created on the other branch). -/
theorem emptyWindow_noReport (teamFile : Option (List TeamEntry))
    (pages : List (Except String (List PullRequestSummary × Bool)))
    (d : Int → Except String PullRequestDetail) (s e : Timestamp)
    (h : filterByWindow s e (githubApiRequestList pages) = []) :
    metricsData (load_team_mapping teamFile) d s e (githubApiRequestList pages) = []
    ∧ fetch_and_calculate_metrics teamFile pages d s e = none := by
  have hmd : metricsData (load_team_mapping teamFile) d s e (githubApiRequestList pages) = [] := by
    simp [metricsData, h]
  exact ⟨hmd, by simp [fetch_and_calculate_metrics, hmd]⟩

/-- C7 (witness): an empty fetch yields no report. -/
theorem emptyWindow_noReport_witness :
    fetch_and_calculate_metrics none [] (fun _ => Except.error "x")
      ⟨0, some 0⟩ ⟨10, some 0⟩ = none :=
  (emptyWindow_noReport none [] (fun _ => Except.error "x") ⟨0, some 0⟩ ⟨10, some 0⟩ rfl).2

/-- C8 (counterexample): nothing deduplicates the fetched list; a pull request
summary appearing twice yields two metric records with the same `pr_id`, so
`pr_id` uniqueness is not guaranteed by the code. -/
theorem prId_unique_cex :
    ¬ (((metricsData (fun _ => none) (fun _ => Except.error "x") ⟨0, some 0⟩ ⟨10, some 0⟩
        [{ number := 7, author := "alice", state := "open",
           created_at := some ⟨5, some 0⟩, merged_at := none },
         { number := 7, author := "alice", state := "open",
           created_at := some ⟨5, some 0⟩, merged_at := none }]).map
        (fun r => r.pr_id)).Nodup) := by
  decide

/-- C8 (amended): the records' `pr_id`s are, in order, exactly the `number`s
of the filtered summaries; they are pairwise distinct whenever the fetched
list has pairwise-distinct `number`s — extraction introduces no duplicates,
but uniqueness is inherited from the upstream data, not enforced. -/
theorem prId_follows_numbers (tm : String → Option String)
    (d : Int → Except String PullRequestDetail) (s e : Timestamp)
    (prs : List PullRequestSummary) :
    ((metricsData tm d s e prs).map (fun r => r.pr_id))
        = (filterByWindow s e prs).map (fun pr => pr.number)
    ∧ ((prs.map (fun pr => pr.number)).Nodup →
        ((metricsData tm d s e prs).map (fun r => r.pr_id)).Nodup) := by
  have h1 : (metricsData tm d s e prs).map (fun r => r.pr_id)
      = (filterByWindow s e prs).map (fun pr => pr.number) := by
    simp only [metricsData, List.map_map]
    rfl
  refine ⟨h1, fun hnd => ?_⟩
  rw [h1]
  exact List.Nodup.sublist ((List.filter_sublist prs).map (fun pr => pr.number)) hnd

/-- C9: when pages `1..N-1` succeed (non-empty, each declaring a next page)
and the request for page `N` fails, the paginated list operation terminates
and returns exactly the concatenation of the items of pages `1..N-1`. -/
theorem pagination_partial {α : Type} (good : List (List α × Bool)) (msg : String)
    (rest : List (Except String (List α × Bool)))
    (h : ∀ p ∈ good, p.1 ≠ [] ∧ p.2 = true) :
    githubApiRequestList (good.map Except.ok ++ Except.error msg :: rest)
      = (good.map Prod.fst).flatten := by
  induction good with
  | nil => simp [githubApiRequestList]
  | cons p gs ih =>
    obtain ⟨hne, hnext⟩ := h p (List.mem_cons_self ..)
    obtain ⟨data, hasNext⟩ := p
    subst hnext
    have hdata : data.isEmpty = false := List.isEmpty_eq_false.mpr hne
    simp [githubApiRequestList, hdata,
      ih (fun q hq => h q (List.mem_cons_of_mem _ hq))]

/-- C9 (witness): one successful page then a failure: the one page's items. -/
theorem pagination_partial_witness :
    githubApiRequestList ([([1, 2], true)].map Except.ok
        ++ Except.error "boom" :: ([] : List (Except String (List Nat × Bool))))
      = ([([1, 2], true)].map Prod.fst).flatten :=
  pagination_partial [([1, 2], true)] "boom" [] (by decide)

end GithubMetrics
